import Mathlib

/-!
# gosnk: the snake game's state, direction update, simulation step and food placement

A shallow embedding of `main.go`.  The game state is the `Game` struct; the body of
`gameLoop` is split into the event handler (`handleEvent`, `pollEvents`), the block
that moves the snake (`update`), one pass of the loop (`loopBody`) and the guarded
loop itself (`runLoop`).

* `int32` fields (`sdl.Rect`, `Point`) are integers, and every `int32` addition is
  reduced with `wrap32`.
* `score` and `updateCount` are Go `int`s, taken as 64-bit: every increment is reduced
  with `wrap64`.
* `math/rand` is a list of raw draws, one pair per pass of the rejection loop of
  `generateFoodPosition`; `Int31n n` reduces a raw draw into `[0, n)`.  A result of
  `none` means that the Go code has not completed: the rejection loop is still
  spinning when the supplied draws are used up, or `game.snake[len-1]` was indexed
  on an empty snake.
-/

namespace Gosnk

/-! ## Constants -/

abbrev screenWidth : Int := 640
abbrev screenHeight : Int := 480
abbrev playAreaTopLeftY : Int := 50
abbrev playAreaWidth : Int := screenWidth
abbrev playAreaHeight : Int := screenHeight - playAreaTopLeftY - 1

/-! ## Machine integers -/

/-- Two's complement reduction of an integer to the `int32` range. -/
def wrap32 (x : Int) : Int := (x + 2147483648) % 4294967296 - 2147483648

/-- Predicate: the integer is a value of type `int32`. -/
def isInt32 (x : Int) : Prop := -2147483648 ≤ x ∧ x < 2147483648

instance (x : Int) : Decidable (isInt32 x) := by unfold isInt32; infer_instance

/-- Two's complement reduction of an integer to the range of a 64-bit Go `int`. -/
def wrap64 (x : Int) : Int :=
  (x + 9223372036854775808) % 18446744073709551616 - 9223372036854775808

/-! ## Data model -/

/-- Go `Point`: a 2D point with `int32` coordinates. -/
structure Point where
  X : Int
  Y : Int
deriving DecidableEq, Repr

/-- The `sdl.Rect` struct of go-sdl2: four `int32` fields. -/
structure Rect where
  X : Int
  Y : Int
  W : Int
  H : Int
deriving DecidableEq, Repr

/-- Go `Game`: the game state. -/
structure Game where
  snake : List Rect
  food : Rect
  direction : Point
  gameOver : Bool
  score : Int
  updateCount : Int
deriving DecidableEq, Repr

/-! ## Library functions used by `main.go` -/

/-- The method `(*Rect).Empty` of go-sdl2: a rectangle without area. -/
def Rect.Empty (a : Rect) : Bool := decide (a.W ≤ 0) || decide (a.H ≤ 0)

/-- The method `(*Rect).HasIntersection` of go-sdl2 (library code called at
`main.go:272`): two non-empty rectangles overlap in a region of positive area.
The sums are `int32` additions. -/
def Rect.HasIntersection (a b : Rect) : Bool :=
  if a.Empty || b.Empty then false
  else if decide (a.X ≥ wrap32 (b.X + b.W)) || decide (wrap32 (a.X + a.W) ≤ b.X)
      || decide (a.Y ≥ wrap32 (b.Y + b.H)) || decide (wrap32 (a.Y + a.H) ≤ b.Y) then false
  else true

/-- The function `rand.Int31n` of `math/rand`: a number in `[0, n)` for `n > 0` (both
calls pass a positive constant), here obtained from a raw draw of the random source. -/
def Int31n (n : Int) (raw : Nat) : Int := (raw : Int) % n

/-- One pass of the rejection loop consumes two draws: the first for `X`, the second
for `Y`. -/
abbrev Draw := Nat × Nat

/-! ## Food placement (`main.go:66-100`) -/

/-- Go `convertRectsToPoints`: the top-left corners of the rectangles. -/
def convertRectsToPoints (rects : List Rect) : List Point :=
  rects.map (fun rect => { X := rect.X, Y := rect.Y })

/-- Go `isPointInSlice`: some point of the slice has the coordinates of `point`. -/
def isPointInSlice (point : Rect) : List Point → Bool
  | [] => false
  | p :: ps => if p.X = point.X ∧ p.Y = point.Y then true else isPointInSlice point ps

/-- The rectangle built at `main.go:69-74` from one pair of draws. -/
def foodPosOf (d : Draw) : Rect :=
  { X := wrap32 (Int31n (screenWidth - 10) d.1 + 5)
    Y := wrap32 (wrap32 (Int31n (playAreaHeight - 10) d.2 + playAreaTopLeftY) + 5)
    W := 10
    H := 10 }

/-- Go `generateFoodPosition`: draw positions until one is not on the snake.  The
result is `none` when every supplied draw was rejected. -/
def generateFoodPosition (snakePoints : List Rect) : List Draw → Option (Rect × List Draw)
  | [] => none
  | d :: rest =>
    let foodPos := foodPosOf d
    if !isPointInSlice foodPos (convertRectsToPoints snakePoints) then some (foodPos, rest)
    else generateFoodPosition snakePoints rest

/-! ## Game creation (`main.go:42-64`, `main.go:203-211`) -/

/-- The three-cell snake built by `newGame`. -/
def initialSnake : List Rect :=
  [ { X := 10, Y := playAreaTopLeftY + 10, W := 10, H := 10 },
    { X := 20, Y := playAreaTopLeftY + 10, W := 10, H := 10 },
    { X := 30, Y := playAreaTopLeftY + 10, W := 10, H := 10 } ]

/-- Go `newGame`. -/
def newGame (draws : List Draw) : Option (Game × List Draw) :=
  match generateFoodPosition initialSnake draws with
  | none => none
  | some (food, rest) =>
    some ({ snake := initialSnake, food := food, direction := { X := 10, Y := 0 },
            gameOver := false, score := 0, updateCount := 0 }, rest)

/-- The prelude of `gameLoop` (`main.go:203-211`): a fresh food, direction right,
counter at zero. -/
def gameLoopInit (game : Game) (draws : List Draw) : Option (Game × List Draw) :=
  match generateFoodPosition game.snake draws with
  | none => none
  | some (foodPos, rest) =>
    some ({ game with food := foodPos, direction := { X := 10, Y := 0 }, updateCount := 0 }, rest)

/-! ## Events and the direction update (`main.go:216-243`) -/

/-- The key symbols that `gameLoop` distinguishes. -/
inductive Keycode where
  | K_UP
  | K_DOWN
  | K_LEFT
  | K_RIGHT
  | other
deriving DecidableEq, Repr

/-- The events that `gameLoop` distinguishes; `keydown` says whether the keyboard
event has type `sdl.KEYDOWN`. -/
inductive Event where
  | QuitEvent
  | KeyboardEvent (keydown : Bool) (sym : Keycode)
  | other
deriving DecidableEq, Repr

/-- The inner `switch keyEvent.Keysym.Sym` (`main.go:223-240`): the direction after a
key press. -/
def keyDown (direction : Point) : Keycode → Point
  | Keycode.K_UP => if direction.Y ≠ 10 then { X := 0, Y := -10 } else direction
  | Keycode.K_DOWN => if direction.Y ≠ -10 then { X := 0, Y := 10 } else direction
  | Keycode.K_LEFT => if direction.X ≠ 10 then { X := -10, Y := 0 } else direction
  | Keycode.K_RIGHT => if direction.X ≠ -10 then { X := 10, Y := 0 } else direction
  | Keycode.other => direction

/-- The outer `switch event.(type)` (`main.go:217-242`). -/
def handleEvent (game : Game) : Event → Game
  | Event.QuitEvent => { game with gameOver := true }
  | Event.KeyboardEvent true sym => { game with direction := keyDown game.direction sym }
  | Event.KeyboardEvent false _ => game
  | Event.other => game

/-- The `for event := sdl.PollEvent(); ...` loop: every pending event in order. -/
def pollEvents (game : Game) (events : List Event) : Game :=
  events.foldl handleEvent game

/-! ## The simulation step (`main.go:250-290`) -/

/-- The rectangle `newHead` of `main.go:252-257`. -/
def newHeadOf (head : Rect) (direction : Point) : Rect :=
  { X := wrap32 (head.X + direction.X), Y := wrap32 (head.Y + direction.Y), W := 10, H := 10 }

/-- The wall test of `main.go:260`. -/
def hitsWall (newHead : Rect) : Bool :=
  decide (newHead.X < 0) || decide (newHead.X ≥ screenWidth)
    || decide (newHead.Y < playAreaTopLeftY) || decide (newHead.Y ≥ screenHeight)

/-- The loop of `main.go:265-269` over `game.snake[:len-1]`: the flag is raised at every
cell with the coordinates of `newHead` and never lowered. -/
def selfCheck (newHead : Rect) (body : List Rect) (gameOver : Bool) : Bool :=
  body.foldl (fun over rect => if newHead.X = rect.X ∧ newHead.Y = rect.Y then true else over)
    gameOver

/-- The block of `main.go:250-290`, run when `updateCount` reaches 10. -/
def update (game : Game) (draws : List Draw) : Option (Game × List Draw) :=
  match game.snake.getLast? with
  | none => none
  | some head =>
    let newHead := newHeadOf head game.direction
    let over1 := if hitsWall newHead then true else game.gameOver
    let over2 := selfCheck newHead game.snake.dropLast over1
    if newHead.HasIntersection game.food then
      let snake := game.snake ++ [{ X := newHead.X, Y := newHead.Y, W := 10, H := 10 }]
      match generateFoodPosition snake draws with
      | none => none
      | some (foodPos, rest) =>
        some ({ game with gameOver := over2, score := wrap64 (game.score + 1), snake := snake,
                          food := foodPos }, rest)
    else
      some ({ game with gameOver := over2, snake := game.snake.tail ++ [newHead] }, draws)

/-- One pass of the body of `for !game.gameOver` (`main.go:215-291`), rendering left
out: poll the events, count, and move the snake on every tenth pass. -/
def loopBody (game : Game) (events : List Event) (draws : List Draw) :
    Option (Game × List Draw) :=
  let g1 := pollEvents game events
  let g2 := { g1 with updateCount := wrap64 (g1.updateCount + 1) }
  if g2.updateCount = 10 then update { g2 with updateCount := 0 } draws
  else some (g2, draws)

/-- The loop `for !game.gameOver` (`main.go:214`): one list of events per pass.  Once
the flag is set at the head of a pass the loop is left, and the pause loop that
follows (`main.go:325-332`) does not touch the state. -/
def runLoop : List (List Event) → Game → List Draw → Option (Game × List Draw)
  | [], game, draws => some (game, draws)
  | events :: more, game, draws =>
    if game.gameOver then some (game, draws)
    else
      match loopBody game events draws with
      | none => none
      | some (game1, rest) => runLoop more game1 rest

/-! ## Vocabulary of the statements -/

/-- The four directions a key press can request: up, down, left, right. -/
def directions : List Point :=
  [{ X := 0, Y := -10 }, { X := 0, Y := 10 }, { X := -10, Y := 0 }, { X := 10, Y := 0 }]

/-- The exact negation of a direction. -/
def Point.neg (d : Point) : Point := { X := -d.X, Y := -d.Y }

/-- The direction that a key requests (`main.go:224-239`). -/
def requestedBy : Keycode → Option Point
  | Keycode.K_UP => some { X := 0, Y := -10 }
  | Keycode.K_DOWN => some { X := 0, Y := 10 }
  | Keycode.K_LEFT => some { X := -10, Y := 0 }
  | Keycode.K_RIGHT => some { X := 10, Y := 0 }
  | Keycode.other => none

/-- Two rectangles have the same coordinates. -/
def sameCell (a b : Rect) : Prop := a.X = b.X ∧ a.Y = b.Y

instance (a b : Rect) : Decidable (sameCell a b) := by unfold sameCell; infer_instance

/-- The playable rectangle: `x` in `[0, width)`, `y` in `[top, top + height)`. -/
def inPlayArea (x y : Int) : Prop :=
  0 ≤ x ∧ x < playAreaWidth ∧ playAreaTopLeftY ≤ y ∧ y < playAreaTopLeftY + playAreaHeight

instance (x y : Int) : Decidable (inPlayArea x y) := by unfold inPlayArea; infer_instance

/-- A grid-aligned 10x10 cell that lies fully inside the playable rectangle. -/
def gridCellInside (f : Rect) : Prop :=
  f.X % 10 = 0 ∧ f.Y % 10 = 0 ∧ 0 ≤ f.X ∧ f.X + 10 ≤ playAreaWidth
    ∧ playAreaTopLeftY ≤ f.Y ∧ f.Y + 10 ≤ playAreaTopLeftY + playAreaHeight

instance (f : Rect) : Decidable (gridCellInside f) := by unfold gridCellInside; infer_instance

/-- The range of `generateFoodPosition`: a 10x10 rectangle whose corner is drawn from
`[5, 634] x [55, 473]`. -/
def placedFood (f : Rect) : Prop :=
  f.W = 10 ∧ f.H = 10 ∧ 5 ≤ f.X ∧ f.X ≤ 634 ∧ 55 ≤ f.Y ∧ f.Y ≤ 473

instance (f : Rect) : Decidable (placedFood f) := by unfold placedFood; infer_instance

/-- The draw is accepted by the rejection loop: its position is not on the snake. -/
def freeDraw (snake : List Rect) (d : Draw) : Bool :=
  !isPointInSlice (foodPosOf d) (convertRectsToPoints snake)

/-- No two cells of the snake have the same coordinates. -/
def distinctCells (snake : List Rect) : Prop := (convertRectsToPoints snake).Nodup

instance (snake : List Rect) : Decidable (distinctCells snake) := by
  unfold distinctCells; infer_instance

/-- The states that the program can be in: the game made by `newGame`, then the
prelude of `gameLoop`, single events, single simulation steps and whole passes of
the loop body, with any random draws. -/
inductive Reachable : Game → Prop where
  | start (draws : List Draw) (g : Game) (rest : List Draw) :
      newGame draws = some (g, rest) → Reachable g
  | prelude (g : Game) (draws : List Draw) (g1 : Game) (rest : List Draw) :
      Reachable g → gameLoopInit g draws = some (g1, rest) → Reachable g1
  | event (g : Game) (e : Event) : Reachable g → Reachable (handleEvent g e)
  | step (g : Game) (draws : List Draw) (g1 : Game) (rest : List Draw) :
      Reachable g → update g draws = some (g1, rest) → Reachable g1
  | pass (g : Game) (events : List Event) (draws : List Draw) (g1 : Game) (rest : List Draw) :
      Reachable g → loopBody g events draws = some (g1, rest) → Reachable g1

/-! ## Sample states -/

/-- The game right after `newGame` and the prelude of `gameLoop`, with the food at
`(105, 155)`. -/
def sampleGame : Game :=
  { snake := initialSnake, food := { X := 105, Y := 155, W := 10, H := 10 },
    direction := { X := 10, Y := 0 }, gameOver := false, score := 0, updateCount := 0 }

/-- A snake about to run into the right wall: head at `(630, 60)`, moving right. -/
def wallGame : Game :=
  { sampleGame with
      snake := [{ X := 610, Y := 60, W := 10, H := 10 }, { X := 620, Y := 60, W := 10, H := 10 },
                { X := 630, Y := 60, W := 10, H := 10 }] }

/-- The sample game with the food at `(45, 62)`: it overlaps the square of the next head
`(40, 60)` without sharing its coordinates. -/
def overlapGame : Game :=
  { sampleGame with food := { X := 45, Y := 62, W := 10, H := 10 } }

/-- The game after `newGame`, the up key and one step: the head is at the top row
`(30, 50)` and moves up. -/
def topGame : Game :=
  { sampleGame with
      direction := { X := 0, Y := -10 }
      snake := [{ X := 20, Y := 60, W := 10, H := 10 }, { X := 30, Y := 60, W := 10, H := 10 },
                { X := 30, Y := 50, W := 10, H := 10 }] }

/-- A game after two eaten foods and a turn down, left and up: the head `(40, 70)` moves
up onto the body cell `(40, 60)`, and the food at `(35, 55)` overlaps that cell. -/
def coilGame : Game :=
  { snake := [{ X := 30, Y := 60, W := 10, H := 10 }, { X := 40, Y := 60, W := 10, H := 10 },
              { X := 50, Y := 60, W := 10, H := 10 }, { X := 50, Y := 70, W := 10, H := 10 },
              { X := 40, Y := 70, W := 10, H := 10 }],
    food := { X := 35, Y := 55, W := 10, H := 10 },
    direction := { X := 0, Y := -10 }, gameOver := false, score := 2, updateCount := 0 }

/-- A snake cell of a running game: on the 10-unit grid and inside the walls that the
step tests. -/
def onGrid (c : Rect) : Prop :=
  c.X % 10 = 0 ∧ c.Y % 10 = 0 ∧ 0 ≤ c.X ∧ c.X < screenWidth
    ∧ playAreaTopLeftY ≤ c.Y ∧ c.Y < screenHeight

instance (c : Rect) : Decidable (onGrid c) := by unfold onGrid; infer_instance

/-- A second invariant of the game loop: the food comes from `generateFoodPosition`, and
while the game runs the score counts the cells beyond the first three and every cell
is on the grid. -/
def Sound (g : Game) : Prop :=
  placedFood g.food
    ∧ (g.gameOver = false → g.score + 3 = (g.snake.length : Int) ∧ ∀ c ∈ g.snake, onGrid c)

/-- The invariant of the game loop: the direction is one of the four, and the cells of a
running snake are pairwise distinct. -/
def Inv (g : Game) : Prop :=
  g.direction ∈ directions ∧ (g.gameOver = false → distinctCells g.snake)

/-! ## Auxiliary lemmas -/

lemma wrap32_of_isInt32 {x : Int} (h : isInt32 x) : wrap32 x = x := by
  unfold isInt32 at h
  unfold wrap32
  omega

lemma wrap32_isInt32 (x : Int) : isInt32 (wrap32 x) := by
  unfold isInt32 wrap32
  omega

lemma wrap32_add_ten_ne (x : Int) : wrap32 (x + 10) ≠ x := by
  unfold wrap32
  omega

lemma wrap32_sub_ten_ne (x : Int) : wrap32 (x + -10) ≠ x := by
  unfold wrap32
  omega

lemma selfCheck_eq_true_iff (newHead : Rect) (body : List Rect) (over : Bool) :
    selfCheck newHead body over = true ↔
      over = true ∨ ∃ c ∈ body, newHead.X = c.X ∧ newHead.Y = c.Y := by
  induction body generalizing over with
  | nil => simp [selfCheck]
  | cons r rs ih =>
    have hstep : selfCheck newHead (r :: rs) over =
        selfCheck newHead rs (if newHead.X = r.X ∧ newHead.Y = r.Y then true else over) := rfl
    rw [hstep, ih]
    by_cases hr : newHead.X = r.X ∧ newHead.Y = r.Y
    · simp [hr]
    · simp only [hr, if_false, List.mem_cons, exists_eq_or_imp, false_or]

lemma isPointInSlice_iff (point : Rect) (rects : List Rect) :
    isPointInSlice point (convertRectsToPoints rects) = true ↔
      ∃ c ∈ rects, c.X = point.X ∧ c.Y = point.Y := by
  induction rects with
  | nil => simp [convertRectsToPoints, isPointInSlice]
  | cons r rs ih =>
    have hstep : isPointInSlice point (convertRectsToPoints (r :: rs)) =
        if r.X = point.X ∧ r.Y = point.Y then true
        else isPointInSlice point (convertRectsToPoints rs) := rfl
    rw [hstep]
    by_cases hr : r.X = point.X ∧ r.Y = point.Y
    · simp [hr]
    · simp only [hr, if_false, ih, List.mem_cons, exists_eq_or_imp, false_or]

lemma generateFoodPosition_some {snake : List Rect} {draws : List Draw} {f : Rect}
    {rest : List Draw} (h : generateFoodPosition snake draws = some (f, rest)) :
    ∃ d ∈ draws, f = foodPosOf d ∧ freeDraw snake d = true := by
  induction draws with
  | nil => simp [generateFoodPosition] at h
  | cons d ds ih =>
    by_cases hd : freeDraw snake d = true
    · have hf : generateFoodPosition snake (d :: ds) = some (foodPosOf d, ds) := by
        unfold freeDraw at hd
        simp [generateFoodPosition, hd]
      rw [hf] at h
      simp only [Option.some.injEq, Prod.mk.injEq] at h
      exact ⟨d, List.mem_cons_self d ds, h.1.symm, hd⟩
    · have hf : generateFoodPosition snake (d :: ds) = generateFoodPosition snake ds := by
        unfold freeDraw at hd
        simp only [generateFoodPosition]
        rw [if_neg hd]
      rw [hf] at h
      obtain ⟨e, he, hfe, hfree⟩ := ih h
      exact ⟨e, List.mem_cons_of_mem d he, hfe, hfree⟩

lemma generateFoodPosition_returns {snake : List Rect} {draws : List Draw}
    (h : ∃ d ∈ draws, freeDraw snake d = true) :
    ∃ f rest, generateFoodPosition snake draws = some (f, rest) := by
  induction draws with
  | nil => simp at h
  | cons d ds ih =>
    by_cases hd : freeDraw snake d = true
    · refine ⟨foodPosOf d, ds, ?_⟩
      unfold freeDraw at hd
      simp [generateFoodPosition, hd]
    · have hf : generateFoodPosition snake (d :: ds) = generateFoodPosition snake ds := by
        unfold freeDraw at hd
        simp only [generateFoodPosition]
        rw [if_neg hd]
      rw [hf]
      apply ih
      obtain ⟨e, he, hfree⟩ := h
      rcases List.mem_cons.mp he with rfl | he1
      · exact absurd hfree hd
      · exact ⟨e, he1, hfree⟩

lemma foodPosOf_placed (d : Draw) : placedFood (foodPosOf d) := by
  unfold placedFood foodPosOf Int31n wrap32
  simp only [screenWidth, playAreaHeight, screenHeight, playAreaTopLeftY]
  refine ⟨trivial, trivial, ?_, ?_, ?_, ?_⟩ <;> omega

lemma update_slide {game : Game} {head : Rect} (draws : List Draw)
    (hhead : game.snake.getLast? = some head)
    (hno : (newHeadOf head game.direction).HasIntersection game.food = false) :
    update game draws =
      some ({ game with
                gameOver := selfCheck (newHeadOf head game.direction) game.snake.dropLast
                  (if hitsWall (newHeadOf head game.direction) then true else game.gameOver)
                snake := game.snake.tail ++ [newHeadOf head game.direction] }, draws) := by
  unfold update
  simp only [hhead, hno]
  rfl

lemma update_grow {game : Game} {head : Rect} {draws rest : List Draw} {f : Rect}
    (hhead : game.snake.getLast? = some head)
    (hyes : (newHeadOf head game.direction).HasIntersection game.food = true)
    (hgen : generateFoodPosition (game.snake ++ [newHeadOf head game.direction]) draws
      = some (f, rest)) :
    update game draws =
      some ({ game with
                gameOver := selfCheck (newHeadOf head game.direction) game.snake.dropLast
                  (if hitsWall (newHeadOf head game.direction) then true else game.gameOver)
                score := wrap64 (game.score + 1)
                snake := game.snake ++ [newHeadOf head game.direction]
                food := f }, rest) := by
  have hseg : Rect.mk (newHeadOf head game.direction).X (newHeadOf head game.direction).Y 10 10
      = newHeadOf head game.direction := rfl
  unfold update
  simp only [hhead, hyes, hseg, hgen]
  rfl

lemma update_spin {game : Game} {head : Rect} {draws : List Draw}
    (hhead : game.snake.getLast? = some head)
    (hyes : (newHeadOf head game.direction).HasIntersection game.food = true)
    (hgen : generateFoodPosition (game.snake ++ [newHeadOf head game.direction]) draws = none) :
    update game draws = none := by
  have hseg : Rect.mk (newHeadOf head game.direction).X (newHeadOf head game.direction).Y 10 10
      = newHeadOf head game.direction := rfl
  unfold update
  simp only [hhead, hyes, hseg, hgen]
  rfl

lemma update_empty {game : Game} (draws : List Draw) (hhead : game.snake.getLast? = none) :
    update game draws = none := by
  unfold update
  simp only [hhead]

/-- What every completed step does: the flag is the result of the two collision tests,
the direction stays, and the new head is appended to the snake or to its tail. -/
lemma update_some_inv {game g1 : Game} {draws rest : List Draw}
    (h : update game draws = some (g1, rest)) :
    ∃ head, game.snake.getLast? = some head
      ∧ g1.direction = game.direction
      ∧ g1.gameOver = selfCheck (newHeadOf head game.direction) game.snake.dropLast
          (if hitsWall (newHeadOf head game.direction) then true else game.gameOver)
      ∧ (g1.snake = game.snake ++ [newHeadOf head game.direction]
          ∨ g1.snake = game.snake.tail ++ [newHeadOf head game.direction]) := by
  cases hh : game.snake.getLast? with
  | none => rw [update_empty draws hh] at h; exact absurd h (by simp)
  | some head =>
    refine ⟨head, rfl, ?_⟩
    cases hi : (newHeadOf head game.direction).HasIntersection game.food with
    | false =>
      rw [update_slide draws hh hi] at h
      simp only [Option.some.injEq, Prod.mk.injEq] at h
      obtain ⟨hg, _⟩ := h
      subst hg
      exact ⟨rfl, rfl, Or.inr rfl⟩
    | true =>
      cases hg : generateFoodPosition (game.snake ++ [newHeadOf head game.direction]) draws with
      | none => rw [update_spin hh hi hg] at h; exact absurd h (by simp)
      | some r =>
        obtain ⟨f, rest1⟩ := r
        rw [update_grow hh hi hg] at h
        simp only [Option.some.injEq, Prod.mk.injEq] at h
        obtain ⟨hg1, _⟩ := h
        subst hg1
        exact ⟨rfl, rfl, Or.inl rfl⟩

lemma over_eq_true_iff (newHead : Rect) (body : List Rect) (over : Bool) :
    selfCheck newHead body (if hitsWall newHead then true else over) = true ↔
      over = true ∨ hitsWall newHead = true ∨ ∃ c ∈ body, newHead.X = c.X ∧ newHead.Y = c.Y := by
  rw [selfCheck_eq_true_iff]
  cases hw : hitsWall newHead <;> simp

lemma wrap32_near {x d : Int} (hx : isInt32 x) (hd : -10 ≤ d ∧ d ≤ 10) :
    wrap32 (x + d) = x + d ∨ (2147483648 ≤ x + d ∧ wrap32 (x + d) < 0)
      ∨ (x + d < -2147483648 ∧ 640 ≤ wrap32 (x + d)) := by
  unfold isInt32 at hx
  unfold wrap32
  omega

lemma directions_small {dir : Point} (hdir : dir ∈ directions) :
    (-10 ≤ dir.X ∧ dir.X ≤ 10) ∧ (-10 ≤ dir.Y ∧ dir.Y ≤ 10)
      ∧ dir.X % 10 = 0 ∧ dir.Y % 10 = 0 := by
  simp only [directions, List.mem_cons, List.mem_singleton, List.not_mem_nil, or_false] at hdir
  rcases hdir with rfl | rfl | rfl | rfl <;> decide

lemma hitsWall_iff_outside {head : Rect} {dir : Point}
    (hint : isInt32 head.X ∧ isInt32 head.Y) (hal : head.X % 10 = 0 ∧ head.Y % 10 = 0)
    (hdir : dir ∈ directions) :
    hitsWall (newHeadOf head dir) = true ↔ ¬ inPlayArea (head.X + dir.X) (head.Y + dir.Y) := by
  obtain ⟨hdx, hdy, hmx, hmy⟩ := directions_small hdir
  have hX := wrap32_near hint.1 hdx
  have hY := wrap32_near hint.2 hdy
  simp only [hitsWall, newHeadOf, inPlayArea, playAreaWidth, screenWidth,
    playAreaHeight, screenHeight, playAreaTopLeftY, Bool.or_eq_true, decide_eq_true_eq]
  generalize wrap32 (head.X + dir.X) = wx at hX ⊢
  generalize wrap32 (head.Y + dir.Y) = wy at hY ⊢
  constructor <;> intro h <;> omega

lemma newHeadOf_exact {head : Rect} {dir : Point}
    (hint : isInt32 head.X ∧ isInt32 head.Y) (hdir : dir ∈ directions)
    (hw : hitsWall (newHeadOf head dir) = false) :
    (newHeadOf head dir).X = head.X + dir.X ∧ (newHeadOf head dir).Y = head.Y + dir.Y := by
  obtain ⟨hdx, hdy, _, _⟩ := directions_small hdir
  have hX := wrap32_near hint.1 hdx
  have hY := wrap32_near hint.2 hdy
  simp only [hitsWall, newHeadOf, screenWidth, screenHeight, playAreaTopLeftY,
    Bool.or_eq_false_iff, decide_eq_false_iff_not] at hw ⊢
  generalize wrap32 (head.X + dir.X) = wx at hX hw ⊢
  generalize wrap32 (head.Y + dir.Y) = wy at hY hw ⊢
  constructor <;> omega

lemma hasIntersection_of_sameCell {a f : Rect} (hW : a.W = 10) (hH : a.H = 10)
    (hs : sameCell a f) (hf : placedFood f) : a.HasIntersection f = true := by
  obtain ⟨hX, hY⟩ := hs
  obtain ⟨fW, fH, h1, h2, h3, h4⟩ := hf
  have e1 : wrap32 (f.X + f.W) = f.X + 10 := by rw [fW]; unfold wrap32; omega
  have e2 : wrap32 (a.X + a.W) = f.X + 10 := by rw [hW, hX]; unfold wrap32; omega
  have e3 : wrap32 (f.Y + f.H) = f.Y + 10 := by rw [fH]; unfold wrap32; omega
  have e4 : wrap32 (a.Y + a.H) = f.Y + 10 := by rw [hH, hY]; unfold wrap32; omega
  unfold Rect.HasIntersection Rect.Empty
  rw [e1, e2, e3, e4, hW, hH, fW, fH, hX, hY]
  simp

lemma keyDown_mem_directions {D : Point} (hD : D ∈ directions) (k : Keycode) :
    keyDown D k ∈ directions := by
  simp only [directions, List.mem_cons, List.mem_singleton, List.not_mem_nil, or_false] at hD
  rcases hD with rfl | rfl | rfl | rfl <;> cases k <;> decide

lemma newHeadOf_ne_head (head : Rect) {dir : Point} (hdir : dir ∈ directions) :
    ¬ ((newHeadOf head dir).X = head.X ∧ (newHeadOf head dir).Y = head.Y) := by
  simp only [directions, List.mem_cons, List.mem_singleton, List.not_mem_nil, or_false] at hdir
  rcases hdir with rfl | rfl | rfl | rfl <;> simp only [newHeadOf] <;> rintro ⟨hx, hy⟩
  · exact wrap32_sub_ten_ne _ hy
  · exact wrap32_add_ten_ne _ hy
  · exact wrap32_sub_ten_ne _ hx
  · exact wrap32_add_ten_ne _ hx

lemma mem_convertRectsToPoints {p : Point} {rects : List Rect} :
    p ∈ convertRectsToPoints rects ↔ ∃ c ∈ rects, c.X = p.X ∧ c.Y = p.Y := by
  unfold convertRectsToPoints
  rw [List.mem_map]
  constructor
  · rintro ⟨c, hc, rfl⟩
    exact ⟨c, hc, rfl, rfl⟩
  · rintro ⟨c, hc, hx, hy⟩
    refine ⟨c, hc, ?_⟩
    cases p
    simp only at hx hy
    rw [hx, hy]

lemma inv_handleEvent {g : Game} (hg : Inv g) (e : Event) : Inv (handleEvent g e) := by
  obtain ⟨hd, hn⟩ := hg
  cases e with
  | QuitEvent => exact ⟨hd, fun h => absurd h (by simp [handleEvent])⟩
  | KeyboardEvent keydown sym =>
    cases keydown with
    | false => exact ⟨hd, hn⟩
    | true => exact ⟨keyDown_mem_directions hd sym, hn⟩
  | other => exact ⟨hd, hn⟩

lemma inv_pollEvents {g : Game} (hg : Inv g) (events : List Event) :
    Inv (pollEvents g events) := by
  induction events generalizing g with
  | nil => exact hg
  | cons e es ih => exact ih (inv_handleEvent hg e)

lemma inv_update {g g1 : Game} {draws rest : List Draw} (hg : Inv g)
    (h : update g draws = some (g1, rest)) : Inv g1 := by
  obtain ⟨hd, hn⟩ := hg
  obtain ⟨head, hh, hdir, hover, hsn⟩ := update_some_inv h
  refine ⟨hdir ▸ hd, ?_⟩
  intro hrun
  rw [hover] at hrun
  have hnot := (over_eq_true_iff _ _ _).not.mp (by rw [hrun]; decide)
  simp only [not_or] at hnot
  obtain ⟨hgo, _, hself⟩ := hnot
  have hgrun : g.gameOver = false := by
    cases hb : g.gameOver with
    | false => rfl
    | true => exact absurd hb hgo
  have hnod : (convertRectsToPoints g.snake).Nodup := hn hgrun
  have hsplit : g.snake.dropLast ++ [head] = g.snake :=
    List.dropLast_append_getLast? head (by rw [hh]; exact rfl)
  have hfresh : Point.mk (newHeadOf head g.direction).X (newHeadOf head g.direction).Y
      ∉ convertRectsToPoints g.snake := by
    rw [mem_convertRectsToPoints]
    rintro ⟨c, hc, hx, hy⟩
    rw [← hsplit] at hc
    rcases List.mem_append.mp hc with hc1 | hc1
    · exact hself ⟨c, hc1, hx.symm, hy.symm⟩
    · rw [List.mem_singleton] at hc1
      subst hc1
      exact newHeadOf_ne_head c hd ⟨hx.symm, hy.symm⟩
  unfold distinctCells
  rcases hsn with hs | hs
  · rw [hs]
    unfold convertRectsToPoints at hnod hfresh ⊢
    rw [List.map_append, List.map_singleton]
    exact List.Nodup.append hnod (List.nodup_singleton _)
      (List.disjoint_singleton.mpr hfresh)
  · rw [hs]
    unfold convertRectsToPoints at hnod hfresh ⊢
    rw [List.map_append, List.map_singleton]
    have hsub : List.Sublist (List.map (fun rect : Rect => ({ X := rect.X, Y := rect.Y } : Point))
        g.snake.tail) (List.map (fun rect : Rect => ({ X := rect.X, Y := rect.Y } : Point))
        g.snake) := List.Sublist.map _ (List.tail_sublist g.snake)
    exact List.Nodup.append (hnod.sublist hsub) (List.nodup_singleton _)
      (List.disjoint_singleton.mpr (fun hm => hfresh (hsub.subset hm)))

lemma inv_loopBody {g g1 : Game} {events : List Event} {draws rest : List Draw} (hg : Inv g)
    (h : loopBody g events draws = some (g1, rest)) : Inv g1 := by
  have hp := inv_pollEvents hg events
  unfold loopBody at h
  simp only at h
  split at h
  · exact inv_update (g := { pollEvents g events with updateCount := 0 }) hp h
  · simp only [Option.some.injEq, Prod.mk.injEq] at h
    obtain ⟨h1, _⟩ := h
    subst h1
    exact hp

lemma inv_initialSnake : distinctCells initialSnake := by decide

lemma inv_newGame {draws rest : List Draw} {g : Game} (h : newGame draws = some (g, rest)) :
    Inv g := by
  unfold newGame at h
  split at h
  · exact absurd h (by simp)
  · simp only [Option.some.injEq, Prod.mk.injEq] at h
    obtain ⟨h1, _⟩ := h
    subst h1
    exact ⟨by simp [directions], fun _ => inv_initialSnake⟩

lemma inv_gameLoopInit {draws rest : List Draw} {g g1 : Game} (hg : Inv g)
    (h : gameLoopInit g draws = some (g1, rest)) : Inv g1 := by
  unfold gameLoopInit at h
  split at h
  · exact absurd h (by simp)
  · simp only [Option.some.injEq, Prod.mk.injEq] at h
    obtain ⟨h1, _⟩ := h
    subst h1
    exact ⟨by simp [directions], hg.2⟩

lemma inv_of_reachable {g : Game} (h : Reachable g) : Inv g := by
  induction h with
  | start draws g rest hnew => exact inv_newGame hnew
  | prelude g draws g1 rest _ hinit ih => exact inv_gameLoopInit ih hinit
  | event g e _ ih => exact inv_handleEvent ih e
  | step g draws g1 rest _ hstep ih => exact inv_update ih hstep
  | pass g events draws g1 rest _ hpass ih => exact inv_loopBody ih hpass

lemma wrap64_of_small {x : Int} (h0 : -1000000 ≤ x) (h1 : x ≤ 1000000) : wrap64 x = x := by
  unfold wrap64
  omega

lemma handleEvent_fields (g : Game) (e : Event) :
    (handleEvent g e).snake = g.snake ∧ (handleEvent g e).food = g.food
      ∧ (handleEvent g e).score = g.score ∧ (handleEvent g e).updateCount = g.updateCount := by
  cases e with
  | QuitEvent => exact ⟨rfl, rfl, rfl, rfl⟩
  | KeyboardEvent keydown sym => cases keydown <;> exact ⟨rfl, rfl, rfl, rfl⟩
  | other => exact ⟨rfl, rfl, rfl, rfl⟩

lemma pollEvents_fields (g : Game) (events : List Event) :
    (pollEvents g events).snake = g.snake ∧ (pollEvents g events).food = g.food
      ∧ (pollEvents g events).score = g.score
      ∧ (pollEvents g events).updateCount = g.updateCount := by
  induction events generalizing g with
  | nil => exact ⟨rfl, rfl, rfl, rfl⟩
  | cons e es ih =>
    have hstep : pollEvents g (e :: es) = pollEvents (handleEvent g e) es := rfl
    obtain ⟨h1, h2, h3, h4⟩ := ih (handleEvent g e)
    obtain ⟨k1, k2, k3, k4⟩ := handleEvent_fields g e
    rw [hstep, h1, h2, h3, h4]
    exact ⟨k1, k2, k3, k4⟩

lemma pollEvents_keeps_gameOver {g : Game} (h : g.gameOver = true) (events : List Event) :
    (pollEvents g events).gameOver = true := by
  induction events generalizing g with
  | nil => exact h
  | cons e es ih =>
    have hstep : pollEvents g (e :: es) = pollEvents (handleEvent g e) es := rfl
    rw [hstep]
    apply ih
    cases e with
    | QuitEvent => rfl
    | KeyboardEvent keydown sym => cases keydown <;> exact h
    | other => exact h

lemma pollEvents_gameOver_of_quit (g : Game) {events : List Event}
    (hq : Event.QuitEvent ∈ events) : (pollEvents g events).gameOver = true := by
  induction events generalizing g with
  | nil => exact absurd hq (List.not_mem_nil _)
  | cons e es ih =>
    have hstep : pollEvents g (e :: es) = pollEvents (handleEvent g e) es := rfl
    rw [hstep]
    rcases List.mem_cons.mp hq with he | hes
    · subst he
      exact pollEvents_keeps_gameOver rfl es
    · exact ih (handleEvent g e) hes

lemma loopBody_tenth {g : Game} (events : List Event) (draws : List Draw)
    (hcount : g.updateCount = 9) :
    loopBody g events draws = update { pollEvents g events with updateCount := 0 } draws := by
  have hc : (pollEvents g events).updateCount = 9 := by
    rw [(pollEvents_fields g events).2.2.2, hcount]
  have hw : wrap64 (9 + 1) = 10 := by unfold wrap64; omega
  unfold loopBody
  simp only [hc, hw, if_true]

/-- What a step does when the snake is not empty and, if food is eaten, a draw is
accepted: it completes, the flag is the result of the two collision tests, and the
next head is appended to the snake (food eaten) or to its tail (no food eaten). -/
lemma update_result {g : Game} {head : Rect} {draws : List Draw}
    (hhead : g.snake.getLast? = some head)
    (hfuel : (newHeadOf head g.direction).HasIntersection g.food = true →
      ∃ d ∈ draws, freeDraw (g.snake ++ [newHeadOf head g.direction]) d = true) :
    ∃ g1 rest, update g draws = some (g1, rest)
      ∧ g1.gameOver = selfCheck (newHeadOf head g.direction) g.snake.dropLast
          (if hitsWall (newHeadOf head g.direction) then true else g.gameOver)
      ∧ (g1.snake = g.snake ++ [newHeadOf head g.direction]
          ∨ g1.snake = g.snake.tail ++ [newHeadOf head g.direction])
      ∧ ((newHeadOf head g.direction).HasIntersection g.food = true →
          g1.snake = g.snake ++ [newHeadOf head g.direction]
          ∧ g1.score = wrap64 (g.score + 1))
      ∧ ((newHeadOf head g.direction).HasIntersection g.food = false →
          g1.snake = g.snake.tail ++ [newHeadOf head g.direction]
          ∧ g1.food = g.food ∧ g1.score = g.score ∧ g1.direction = g.direction
          ∧ rest = draws) := by
  cases hi : (newHeadOf head g.direction).HasIntersection g.food with
  | false =>
    exact ⟨_, _, update_slide draws hhead hi, rfl, Or.inr rfl,
      fun h => absurd h (by decide), fun _ => ⟨rfl, rfl, rfl, rfl, rfl⟩⟩
  | true =>
    obtain ⟨f, rest, hgen⟩ := generateFoodPosition_returns (hfuel hi)
    exact ⟨_, _, update_grow hhead hi hgen, rfl, Or.inl rfl,
      fun _ => ⟨rfl, rfl⟩, fun h => absurd h (by decide)⟩

/-- The two ways in which a step completes. -/
lemma update_some_cases {game g1 : Game} {draws rest : List Draw}
    (h : update game draws = some (g1, rest)) :
    ∃ head, game.snake.getLast? = some head
      ∧ g1.gameOver = selfCheck (newHeadOf head game.direction) game.snake.dropLast
          (if hitsWall (newHeadOf head game.direction) then true else game.gameOver)
      ∧ ((g1.snake = game.snake ++ [newHeadOf head game.direction]
            ∧ g1.score = wrap64 (game.score + 1)
            ∧ generateFoodPosition (game.snake ++ [newHeadOf head game.direction]) draws
                = some (g1.food, rest))
          ∨ (g1.snake = game.snake.tail ++ [newHeadOf head game.direction]
            ∧ g1.score = game.score ∧ g1.food = game.food)) := by
  cases hh : game.snake.getLast? with
  | none => rw [update_empty draws hh] at h; exact absurd h (by simp)
  | some head =>
    refine ⟨head, rfl, ?_⟩
    cases hi : (newHeadOf head game.direction).HasIntersection game.food with
    | false =>
      rw [update_slide draws hh hi] at h
      simp only [Option.some.injEq, Prod.mk.injEq] at h
      obtain ⟨hg, _⟩ := h
      subst hg
      exact ⟨rfl, Or.inr ⟨rfl, rfl, rfl⟩⟩
    | true =>
      cases hg : generateFoodPosition (game.snake ++ [newHeadOf head game.direction]) draws with
      | none => rw [update_spin hh hi hg] at h; exact absurd h (by simp)
      | some r =>
        obtain ⟨f, rest1⟩ := r
        rw [update_grow hh hi hg] at h
        simp only [Option.some.injEq, Prod.mk.injEq] at h
        obtain ⟨hg1, hr1⟩ := h
        subst hg1
        subst hr1
        exact ⟨rfl, Or.inl ⟨rfl, rfl, rfl⟩⟩

lemma generateFoodPosition_placed {snake : List Rect} {draws rest : List Draw} {f : Rect}
    (h : generateFoodPosition snake draws = some (f, rest)) : placedFood f := by
  obtain ⟨d, _, hf, _⟩ := generateFoodPosition_some h
  rw [hf]
  exact foodPosOf_placed d

set_option maxRecDepth 10000 in
/-- A snake of distinct cells inside the walls has at most `640 * 430` cells. -/
lemma length_le_of_onGrid {snake : List Rect} (hn : distinctCells snake)
    (hg : ∀ c ∈ snake, onGrid c) : snake.length ≤ 640 * 430 := by
  have hinj : Function.Injective (fun p : Point => (p.X, p.Y)) := by
    intro p q hpq
    cases p
    cases q
    simp only [Prod.mk.injEq] at hpq
    rw [hpq.1, hpq.2]
  have hnod : ((convertRectsToPoints snake).map (fun p : Point => (p.X, p.Y))).Nodup :=
    List.Nodup.map hinj hn
  have hsub : ((convertRectsToPoints snake).map (fun p : Point => (p.X, p.Y))).toFinset
      ⊆ Finset.Icc (0 : Int) 639 ×ˢ Finset.Icc (50 : Int) 479 := by
    intro x hx
    rw [List.mem_toFinset, List.mem_map] at hx
    obtain ⟨p, hp, hpx⟩ := hx
    obtain ⟨c, hc, hcx, hcy⟩ := mem_convertRectsToPoints.mp hp
    obtain ⟨_, _, h1, h2, h3, h4⟩ := hg c hc
    simp only [screenWidth, screenHeight, playAreaTopLeftY] at h2 h3 h4
    rw [← hpx, Finset.mem_product, Finset.mem_Icc, Finset.mem_Icc]
    simp only
    omega
  have hcard := Finset.card_le_card hsub
  rw [List.toFinset_card_of_nodup hnod, List.length_map, Finset.card_product,
    Int.card_Icc, Int.card_Icc] at hcard
  have hlen : (convertRectsToPoints snake).length = snake.length := by
    unfold convertRectsToPoints
    exact List.length_map _ _
  rw [hlen] at hcard
  exact hcard

/-- On the grid inside the walls, the next head is the exact sum, the wall test is
leaving the playable rectangle, and so the two collision tests of the step are the
two conditions on `head + direction`. -/
lemma collision_iff {g : Game} {head : Rect} (hrun : g.gameOver = false)
    (hint : isInt32 head.X ∧ isInt32 head.Y) (hal : head.X % 10 = 0 ∧ head.Y % 10 = 0)
    (hdir : g.direction ∈ directions) :
    selfCheck (newHeadOf head g.direction) g.snake.dropLast
      (if hitsWall (newHeadOf head g.direction) then true else g.gameOver) = true ↔
        ¬ inPlayArea (head.X + g.direction.X) (head.Y + g.direction.Y)
        ∨ ∃ c ∈ g.snake.dropLast,
            c.X = head.X + g.direction.X ∧ c.Y = head.Y + g.direction.Y := by
  have hwall := hitsWall_iff_outside hint hal hdir
  rw [over_eq_true_iff, hrun]
  cases hw : hitsWall (newHeadOf head g.direction) with
  | true =>
    have hout := hwall.mp hw
    constructor
    · intro _; exact Or.inl hout
    · intro _; exact Or.inr (Or.inl rfl)
  | false =>
    have hin : ¬ ¬ inPlayArea (head.X + g.direction.X) (head.Y + g.direction.Y) := by
      intro hout
      have := hwall.mpr hout
      rw [hw] at this
      exact absurd this (by decide)
    obtain ⟨eX, eY⟩ := newHeadOf_exact hint hdir hw
    rw [eX, eY]
    constructor
    · rintro (h | h | ⟨c, hc, h1, h2⟩)
      · exact absurd h (by decide)
      · exact absurd h (by decide)
      · exact Or.inr ⟨c, hc, h1.symm, h2.symm⟩
    · rintro (h | ⟨c, hc, h1, h2⟩)
      · exact absurd h hin
      · exact Or.inr (Or.inr ⟨c, hc, h1.symm, h2.symm⟩)

lemma onGrid_isInt32 {c : Rect} (h : onGrid c) : isInt32 c.X ∧ isInt32 c.Y := by
  obtain ⟨_, _, h1, h2, h3, h4⟩ := h
  simp only [screenWidth, screenHeight, playAreaTopLeftY] at h2 h3 h4
  unfold isInt32
  omega

lemma sound_handleEvent {g : Game} (hg : Sound g) (e : Event) : Sound (handleEvent g e) := by
  obtain ⟨hf, hn⟩ := hg
  cases e with
  | QuitEvent => exact ⟨hf, fun h => absurd h (by simp [handleEvent])⟩
  | KeyboardEvent keydown sym => cases keydown <;> exact ⟨hf, hn⟩
  | other => exact ⟨hf, hn⟩

lemma sound_pollEvents {g : Game} (hg : Sound g) (events : List Event) :
    Sound (pollEvents g events) := by
  induction events generalizing g with
  | nil => exact hg
  | cons e es ih => exact ih (sound_handleEvent hg e)

lemma sound_update {g g1 : Game} {draws rest : List Draw} (hI : Inv g) (hS : Sound g)
    (h : update g draws = some (g1, rest)) : Sound g1 := by
  obtain ⟨hd, hnod⟩ := hI
  obtain ⟨hfood, hrunning⟩ := hS
  obtain ⟨head, hh, hover, hcases⟩ := update_some_cases h
  have hfood1 : placedFood g1.food := by
    rcases hcases with ⟨_, _, hgen⟩ | ⟨_, _, hf⟩
    · exact generateFoodPosition_placed hgen
    · rw [hf]; exact hfood
  refine ⟨hfood1, ?_⟩
  intro hrun
  rw [hover] at hrun
  have hnot := (over_eq_true_iff _ _ _).not.mp (by rw [hrun]; decide)
  simp only [not_or] at hnot
  obtain ⟨hgo, hwall, _⟩ := hnot
  have hgrun : g.gameOver = false := by
    cases hb : g.gameOver with
    | false => rfl
    | true => exact absurd hb hgo
  obtain ⟨hscore, hgrid⟩ := hrunning hgrun
  have hw : hitsWall (newHeadOf head g.direction) = false := by
    cases hb : hitsWall (newHeadOf head g.direction) with
    | false => rfl
    | true => exact absurd hb hwall
  have hmem : head ∈ g.snake := List.mem_of_getLast?_eq_some hh
  have hheadgrid := hgrid head hmem
  obtain ⟨eX, eY⟩ := newHeadOf_exact (onGrid_isInt32 hheadgrid) hd hw
  obtain ⟨_, _, hmx, hmy⟩ := directions_small hd
  have hnew : onGrid (newHeadOf head g.direction) := by
    obtain ⟨a1, a2, a3, a4, a5, a6⟩ := hheadgrid
    simp only [hitsWall, Bool.or_eq_false_iff, decide_eq_false_iff_not] at hw
    unfold onGrid
    rw [eX, eY] at hw ⊢
    simp only [screenWidth, screenHeight, playAreaTopLeftY] at hw a4 a5 a6 ⊢
    refine ⟨?_, ?_, ?_, ?_, ?_, ?_⟩ <;> omega
  have hlen := length_le_of_onGrid (hnod hgrun) hgrid
  have hne : g.snake ≠ [] := List.ne_nil_of_mem hmem
  have hpos : 0 < g.snake.length := List.length_pos.mpr hne
  rcases hcases with ⟨hs, hsc, _⟩ | ⟨hs, hsc, _⟩
  · constructor
    · have hsmall : wrap64 (g.score + 1) = g.score + 1 :=
        wrap64_of_small (by omega) (by omega)
      rw [hsc, hs, hsmall]
      simp only [List.length_append, List.length_singleton, Nat.cast_add, Nat.cast_one]
      omega
    · intro c hc
      rw [hs] at hc
      rcases List.mem_append.mp hc with hc1 | hc1
      · exact hgrid c hc1
      · rw [List.mem_singleton] at hc1
        rw [hc1]
        exact hnew
  · constructor
    · rw [hsc, hs]
      simp only [List.length_append, List.length_tail, List.length_singleton, Nat.cast_add,
        Nat.cast_one]
      omega
    · intro c hc
      rw [hs] at hc
      rcases List.mem_append.mp hc with hc1 | hc1
      · exact hgrid c (List.mem_of_mem_tail hc1)
      · rw [List.mem_singleton] at hc1
        rw [hc1]
        exact hnew

lemma sound_loopBody {g g1 : Game} {events : List Event} {draws rest : List Draw}
    (hI : Inv g) (hS : Sound g) (h : loopBody g events draws = some (g1, rest)) :
    Sound g1 := by
  have hp := sound_pollEvents hS events
  have hi := inv_pollEvents hI events
  unfold loopBody at h
  simp only at h
  split at h
  · exact sound_update (g := { pollEvents g events with updateCount := 0 }) hi hp h
  · simp only [Option.some.injEq, Prod.mk.injEq] at h
    obtain ⟨h1, _⟩ := h
    subst h1
    exact hp

lemma sound_initialSnake :
    (0 : Int) + 3 = (initialSnake.length : Int) ∧ ∀ c ∈ initialSnake, onGrid c := by decide

lemma sound_newGame {draws rest : List Draw} {g : Game} (h : newGame draws = some (g, rest)) :
    Sound g := by
  unfold newGame at h
  split at h
  · exact absurd h (by simp)
  · rename_i food rest1 hgen
    simp only [Option.some.injEq, Prod.mk.injEq] at h
    obtain ⟨h1, _⟩ := h
    subst h1
    exact ⟨generateFoodPosition_placed hgen, fun _ => sound_initialSnake⟩

lemma sound_gameLoopInit {draws rest : List Draw} {g g1 : Game} (hg : Sound g)
    (h : gameLoopInit g draws = some (g1, rest)) : Sound g1 := by
  unfold gameLoopInit at h
  split at h
  · exact absurd h (by simp)
  · rename_i food rest1 hgen
    simp only [Option.some.injEq, Prod.mk.injEq] at h
    obtain ⟨h1, _⟩ := h
    subst h1
    exact ⟨generateFoodPosition_placed hgen, hg.2⟩

lemma sound_of_reachable {g : Game} (h : Reachable g) : Sound g := by
  induction h with
  | start draws g rest hnew => exact sound_newGame hnew
  | prelude g draws g1 rest _ hinit ih => exact sound_gameLoopInit ih hinit
  | event g e _ ih => exact sound_handleEvent ih e
  | step g draws g1 rest hprev hstep ih => exact sound_update (inv_of_reachable hprev) ih hstep
  | pass g events draws g1 rest hprev hpass ih =>
    exact sound_loopBody (inv_of_reachable hprev) ih hpass

lemma reachable_topGame : Reachable topGame :=
  Reachable.step (handleEvent sampleGame (Event.KeyboardEvent true Keycode.K_UP)) [] _ []
    (Reachable.event sampleGame (Event.KeyboardEvent true Keycode.K_UP)
      (Reachable.start [(100, 100)] sampleGame [] (by decide)))
    (by decide)

lemma reachable_coilGame : Reachable coilGame := by
  have h0 : Reachable { sampleGame with food := { X := 40, Y := 60, W := 10, H := 10 } } :=
    Reachable.start [(35, 5)] _ [] (by decide)
  have h1 : Reachable { sampleGame with
      food := { X := 50, Y := 60, W := 10, H := 10 }
      score := 1
      snake := [{ X := 10, Y := 60, W := 10, H := 10 }, { X := 20, Y := 60, W := 10, H := 10 },
                { X := 30, Y := 60, W := 10, H := 10 }, { X := 40, Y := 60, W := 10, H := 10 }] } :=
    Reachable.step _ [(45, 5)] _ [] h0 (by decide)
  have h2 : Reachable { sampleGame with
      food := { X := 35, Y := 55, W := 10, H := 10 }
      score := 2
      snake := [{ X := 10, Y := 60, W := 10, H := 10 }, { X := 20, Y := 60, W := 10, H := 10 },
                { X := 30, Y := 60, W := 10, H := 10 }, { X := 40, Y := 60, W := 10, H := 10 },
                { X := 50, Y := 60, W := 10, H := 10 }] } :=
    Reachable.step _ [(30, 0)] _ [] h1 (by decide)
  have h3 : Reachable { sampleGame with
      food := { X := 35, Y := 55, W := 10, H := 10 }
      score := 2
      direction := { X := 0, Y := 10 }
      snake := [{ X := 20, Y := 60, W := 10, H := 10 }, { X := 30, Y := 60, W := 10, H := 10 },
                { X := 40, Y := 60, W := 10, H := 10 }, { X := 50, Y := 60, W := 10, H := 10 },
                { X := 50, Y := 70, W := 10, H := 10 }] } :=
    Reachable.step _ [] _ [] (Reachable.event _ (Event.KeyboardEvent true Keycode.K_DOWN) h2)
      (by decide)
  have h4 : Reachable { sampleGame with
      food := { X := 35, Y := 55, W := 10, H := 10 }
      score := 2
      direction := { X := -10, Y := 0 }
      snake := [{ X := 30, Y := 60, W := 10, H := 10 }, { X := 40, Y := 60, W := 10, H := 10 },
                { X := 50, Y := 60, W := 10, H := 10 }, { X := 50, Y := 70, W := 10, H := 10 },
                { X := 40, Y := 70, W := 10, H := 10 }] } :=
    Reachable.step _ [] _ [] (Reachable.event _ (Event.KeyboardEvent true Keycode.K_LEFT) h3)
      (by decide)
  exact Reachable.event _ (Event.KeyboardEvent true Keycode.K_UP) h4

/-! ## Direction update -/

/-- C5: for a current direction `D` and a requested direction `R`, both among up, down,
left and right, the direction update for the key that requests `R` returns `D` when
`R` is the exact negation of `D`, and `R` otherwise. -/
theorem direction_update_rejects_exact_reversal (D R : Point) (k : Keycode)
    (hD : D ∈ directions) (hR : R ∈ directions) (hk : requestedBy k = some R) :
    keyDown D k = if R = D.neg then D else R := by
  simp only [directions, List.mem_cons, List.mem_singleton, List.not_mem_nil, or_false] at hD hR
  rcases hD with rfl | rfl | rfl | rfl <;> cases k <;> simp only [requestedBy] at hk <;>
    cases hk <;> decide

/-- Witness of C5: moving right, the left key is refused. -/
theorem direction_update_rejects_exact_reversal_witness :
    (({ X := 10, Y := 0 } : Point) ∈ directions ∧ ({ X := -10, Y := 0 } : Point) ∈ directions
      ∧ requestedBy Keycode.K_LEFT = some { X := -10, Y := 0 })
    ∧ keyDown { X := 10, Y := 0 } Keycode.K_LEFT
        = (if ({ X := -10, Y := 0 } : Point) = Point.neg { X := 10, Y := 0 }
            then { X := 10, Y := 0 } else { X := -10, Y := 0 })
    ∧ keyDown { X := 10, Y := 0 } Keycode.K_LEFT = { X := 10, Y := 0 } :=
  ⟨⟨by decide, by decide, rfl⟩,
   direction_update_rejects_exact_reversal { X := 10, Y := 0 } { X := -10, Y := 0 }
     Keycode.K_LEFT (by decide) (by decide) rfl,
   by decide⟩

/-- C10, evaluated at the failing input: moving right, the key presses up and left
handled in one pass leave the direction at left, the exact negation of the direction
of the last step; the step of that pass puts the head on the neck `(20, 60)` and ends
the game. -/
theorem two_key_presses_reverse_direction :
    sampleGame.direction ∈ directions
    ∧ (pollEvents sampleGame
        [Event.KeyboardEvent true Keycode.K_UP, Event.KeyboardEvent true Keycode.K_LEFT]).direction
        = sampleGame.direction.neg
    ∧ loopBody { sampleGame with updateCount := 9 }
        [Event.KeyboardEvent true Keycode.K_UP, Event.KeyboardEvent true Keycode.K_LEFT] []
        = some ({ sampleGame with
                    direction := { X := -10, Y := 0 }
                    gameOver := true
                    snake := [{ X := 20, Y := 60, W := 10, H := 10 },
                              { X := 30, Y := 60, W := 10, H := 10 },
                              { X := 20, Y := 60, W := 10, H := 10 }] }, []) := by
  refine ⟨by decide, by decide, by decide⟩

/-! ## Food placement -/

/-- C6: a cell returned by `generateFoodPosition` has coordinates different from the
coordinates of every cell of the snake passed to it, for every snake and every
sequence of draws. -/
theorem generateFoodPosition_not_on_snake (snake : List Rect) (draws rest : List Draw)
    (f : Rect) (h : generateFoodPosition snake draws = some (f, rest)) :
    ∀ c ∈ snake, ¬ (c.X = f.X ∧ c.Y = f.Y) := by
  obtain ⟨d, _, hf, hfree⟩ := generateFoodPosition_some h
  intro c hc hcf
  have hin : isPointInSlice f (convertRectsToPoints snake) = true :=
    (isPointInSlice_iff f snake).mpr ⟨c, hc, hcf⟩
  rw [hf] at hin
  unfold freeDraw at hfree
  rw [hin] at hfree
  exact absurd hfree (by decide)

/-- Witness of C6: the first draw `(5, 5)` lands on the snake cell `(10, 60)` and is
rejected, the second draw is returned. -/
theorem generateFoodPosition_not_on_snake_witness :
    generateFoodPosition initialSnake [(5, 5), (100, 100)]
        = some ({ X := 105, Y := 155, W := 10, H := 10 }, [])
    ∧ ∀ c ∈ initialSnake, ¬ (c.X = 105 ∧ c.Y = 155) :=
  ⟨by decide,
   generateFoodPosition_not_on_snake initialSnake [(5, 5), (100, 100)] []
     { X := 105, Y := 155, W := 10, H := 10 } (by decide)⟩

/-- C7 fails: with the draws `629` and `418` the returned food is at `(634, 473)`, which
is not on the 10-unit grid and whose square reaches `x = 644` and `y = 483`. -/
theorem generateFoodPosition_off_grid :
    generateFoodPosition initialSnake [(629, 418)]
        = some ({ X := 634, Y := 473, W := 10, H := 10 }, [])
    ∧ ¬ gridCellInside { X := 634, Y := 473, W := 10, H := 10 }
    ∧ ¬ ((634 : Int) % 10 = 0) ∧ ¬ ((634 : Int) + 10 ≤ playAreaWidth) := by
  refine ⟨by decide, by decide, by decide, by decide⟩

/-- C7, amended: a cell returned by `generateFoodPosition` is a 10x10 rectangle whose
corner `(X, Y)` satisfies `5 ≤ X ≤ 634` and `55 ≤ Y ≤ 473`, so the corner lies in the
playable rectangle. -/
theorem generateFoodPosition_range (snake : List Rect) (draws rest : List Draw) (f : Rect)
    (h : generateFoodPosition snake draws = some (f, rest)) :
    f.W = 10 ∧ f.H = 10 ∧ 5 ≤ f.X ∧ f.X ≤ 634 ∧ 55 ≤ f.Y ∧ f.Y ≤ 473 ∧ inPlayArea f.X f.Y := by
  obtain ⟨d, _, hf, _⟩ := generateFoodPosition_some h
  have hp := foodPosOf_placed d
  rw [← hf] at hp
  obtain ⟨hW, hH, h1, h2, h3, h4⟩ := hp
  refine ⟨hW, hH, h1, h2, h3, h4, ?_⟩
  unfold inPlayArea
  simp only [playAreaWidth, screenWidth, playAreaHeight, screenHeight, playAreaTopLeftY]
  omega

/-- Witness of C7, amended: the draws `(0, 0)` give the food at `(5, 55)`. -/
theorem generateFoodPosition_range_witness :
    generateFoodPosition initialSnake [(0, 0)] = some ({ X := 5, Y := 55, W := 10, H := 10 }, [])
    ∧ (10 : Int) = 10 ∧ (10 : Int) = 10 ∧ (5 : Int) ≤ 5 ∧ (5 : Int) ≤ 634 ∧ (55 : Int) ≤ 55
    ∧ (55 : Int) ≤ 473 ∧ inPlayArea 5 55 :=
  ⟨by decide,
   generateFoodPosition_range initialSnake [(0, 0)] []
     { X := 5, Y := 55, W := 10, H := 10 } (by decide)⟩

/-! ## The simulation step -/

/-- C1 fails: (a) in the game reached by the up key and one step, the head `(30, 50)`
moves up to `(30, 40)`, outside the playable rectangle; the step sets the flag and still
moves the snake to `[(30,60),(30,50),(30,40)]`; (b) in a game reached after two eaten
foods, the head moves onto the body cell `(40, 60)`, which the food at `(35, 55)`
overlaps; the step sets the flag, and snake, food and score all change. -/
theorem collision_step_moves_snake :
    (Reachable topGame ∧ topGame.gameOver = false
      ∧ topGame.snake.getLast? = some { X := 30, Y := 50, W := 10, H := 10 }
      ∧ ¬ inPlayArea ((30 : Int) + topGame.direction.X) ((50 : Int) + topGame.direction.Y)
      ∧ update topGame []
          = some ({ topGame with
                      gameOver := true
                      snake := [{ X := 30, Y := 60, W := 10, H := 10 },
                                { X := 30, Y := 50, W := 10, H := 10 },
                                { X := 30, Y := 40, W := 10, H := 10 }] }, [])
      ∧ [{ X := 30, Y := 60, W := 10, H := 10 }, { X := 30, Y := 50, W := 10, H := 10 },
          ({ X := 30, Y := 40, W := 10, H := 10 } : Rect)] ≠ topGame.snake)
    ∧ (Reachable coilGame ∧ coilGame.gameOver = false
      ∧ coilGame.snake.getLast? = some { X := 40, Y := 70, W := 10, H := 10 }
      ∧ ({ X := 40, Y := 60, W := 10, H := 10 } : Rect) ∈ coilGame.snake.dropLast
      ∧ update coilGame [(100, 100)]
          = some ({ coilGame with
                      gameOver := true
                      score := 3
                      food := { X := 105, Y := 155, W := 10, H := 10 }
                      snake := [{ X := 30, Y := 60, W := 10, H := 10 },
                                { X := 40, Y := 60, W := 10, H := 10 },
                                { X := 50, Y := 60, W := 10, H := 10 },
                                { X := 50, Y := 70, W := 10, H := 10 },
                                { X := 40, Y := 70, W := 10, H := 10 },
                                { X := 40, Y := 60, W := 10, H := 10 }] }, [])) := by
  refine ⟨⟨reachable_topGame, by decide, by decide, by decide, by decide, by decide⟩,
    reachable_coilGame, by decide, by decide, by decide, by decide⟩

/-- C1, amended: in a running state of the game with a non-empty snake whose next head
`head + direction` lies outside the playable rectangle or has the coordinates of a
snake cell other than the current head, the step (completed by a draw that the
rejection loop accepts, when food is eaten) sets the flag and still appends the next
head to the snake; when the next head does not overlap the food, the snake becomes
`snake[1:]` followed by the next head, and food and score keep their values. -/
theorem collision_step_sets_gameOver (s : Game) (draws : List Draw) (head : Rect)
    (hreach : Reachable s) (hrun : s.gameOver = false)
    (hhead : s.snake.getLast? = some head)
    (hcol : ¬ inPlayArea (head.X + s.direction.X) (head.Y + s.direction.Y)
      ∨ ∃ c ∈ s.snake.dropLast,
          c.X = head.X + s.direction.X ∧ c.Y = head.Y + s.direction.Y)
    (hfuel : (newHeadOf head s.direction).HasIntersection s.food = true →
      ∃ d ∈ draws, freeDraw (s.snake ++ [newHeadOf head s.direction]) d = true) :
    ∃ s1 rest, update s draws = some (s1, rest)
      ∧ s1.gameOver = true
      ∧ (s1.snake = s.snake ++ [newHeadOf head s.direction]
          ∨ s1.snake = s.snake.tail ++ [newHeadOf head s.direction])
      ∧ ((newHeadOf head s.direction).HasIntersection s.food = false →
          s1.snake = s.snake.tail ++ [newHeadOf head s.direction]
          ∧ s1.food = s.food ∧ s1.score = s.score ∧ rest = draws) := by
  have hinv := inv_of_reachable hreach
  have hgrid := (sound_of_reachable hreach).2 hrun
  have hheadgrid := hgrid.2 head (List.mem_of_getLast?_eq_some hhead)
  have hover := (collision_iff hrun (onGrid_isInt32 hheadgrid)
    ⟨hheadgrid.1, hheadgrid.2.1⟩ hinv.1).mpr hcol
  obtain ⟨s1, rest, hstep, hflag, hsnake, _, hslide⟩ := update_result hhead hfuel
  refine ⟨s1, rest, hstep, hflag.trans hover, hsnake, ?_⟩
  intro hno
  obtain ⟨h1, h2, h3, _, h5⟩ := hslide hno
  exact ⟨h1, h2, h3, h5⟩

/-- Witness of C1, amended: the snake at the top row that moves up. -/
theorem collision_step_sets_gameOver_witness :
    (Reachable topGame ∧ topGame.gameOver = false
      ∧ topGame.snake.getLast? = some { X := 30, Y := 50, W := 10, H := 10 }
      ∧ ¬ inPlayArea ((30 : Int) + topGame.direction.X) ((50 : Int) + topGame.direction.Y))
    ∧ ∃ s1 rest, update topGame [] = some (s1, rest)
      ∧ s1.gameOver = true
      ∧ (s1.snake = topGame.snake
            ++ [newHeadOf { X := 30, Y := 50, W := 10, H := 10 } topGame.direction]
          ∨ s1.snake = topGame.snake.tail
            ++ [newHeadOf { X := 30, Y := 50, W := 10, H := 10 } topGame.direction])
      ∧ ((newHeadOf { X := 30, Y := 50, W := 10, H := 10 } topGame.direction).HasIntersection
            topGame.food = false →
          s1.snake = topGame.snake.tail
            ++ [newHeadOf { X := 30, Y := 50, W := 10, H := 10 } topGame.direction]
          ∧ s1.food = topGame.food ∧ s1.score = topGame.score ∧ rest = []) :=
  ⟨⟨reachable_topGame, by decide, by decide, by decide⟩,
   collision_step_sets_gameOver topGame [] { X := 30, Y := 50, W := 10, H := 10 }
     reachable_topGame (by decide) (by decide) (Or.inl (by decide))
     (fun h => absurd h (by decide))⟩

/-- C2: in a running state whose head is grid-aligned and whose direction is one of
`(0,-10)`, `(0,10)`, `(-10,0)`, `(10,0)`, the step completes (given a draw that the
rejection loop accepts, when food is eaten), and the state after it is terminal if and
only if `head + direction` lies outside the playable rectangle `x` in `[0, 640)`, `y` in
`[50, 50 + 429)` or has the coordinates of a snake cell other than the current head. -/
theorem step_terminal_iff_collision (s : Game) (draws : List Draw) (head : Rect)
    (hrun : s.gameOver = false) (hhead : s.snake.getLast? = some head)
    (hint : isInt32 head.X ∧ isInt32 head.Y)
    (hal : head.X % 10 = 0 ∧ head.Y % 10 = 0)
    (hdir : s.direction ∈ directions)
    (hfuel : (newHeadOf head s.direction).HasIntersection s.food = true →
      ∃ d ∈ draws, freeDraw (s.snake ++ [newHeadOf head s.direction]) d = true) :
    ∃ s1 rest, update s draws = some (s1, rest)
      ∧ (s1.gameOver = true ↔
          ¬ inPlayArea (head.X + s.direction.X) (head.Y + s.direction.Y)
          ∨ ∃ c ∈ s.snake.dropLast,
              c.X = head.X + s.direction.X ∧ c.Y = head.Y + s.direction.Y) := by
  have hwall := hitsWall_iff_outside hint hal hdir
  have hiff : selfCheck (newHeadOf head s.direction) s.snake.dropLast
      (if hitsWall (newHeadOf head s.direction) then true else s.gameOver) = true ↔
        ¬ inPlayArea (head.X + s.direction.X) (head.Y + s.direction.Y)
        ∨ ∃ c ∈ s.snake.dropLast,
            c.X = head.X + s.direction.X ∧ c.Y = head.Y + s.direction.Y := by
    rw [over_eq_true_iff, hrun]
    cases hw : hitsWall (newHeadOf head s.direction) with
    | true =>
      have hout := hwall.mp hw
      constructor
      · intro _; exact Or.inl hout
      · intro _; exact Or.inr (Or.inl rfl)
    | false =>
      have hin : ¬ ¬ inPlayArea (head.X + s.direction.X) (head.Y + s.direction.Y) := by
        intro hout
        have := hwall.mpr hout
        rw [hw] at this
        exact absurd this (by decide)
      obtain ⟨eX, eY⟩ := newHeadOf_exact hint hdir hw
      rw [eX, eY]
      constructor
      · rintro (h | h | ⟨c, hc, h1, h2⟩)
        · exact absurd h (by decide)
        · exact absurd h (by decide)
        · exact Or.inr ⟨c, hc, h1.symm, h2.symm⟩
      · rintro (h | ⟨c, hc, h1, h2⟩)
        · exact absurd h hin
        · exact Or.inr (Or.inr ⟨c, hc, h1.symm, h2.symm⟩)
  cases hi : (newHeadOf head s.direction).HasIntersection s.food with
  | false => exact ⟨_, _, update_slide draws hhead hi, hiff⟩
  | true =>
    obtain ⟨f, rest, hgen⟩ := generateFoodPosition_returns (hfuel hi)
    exact ⟨_, _, update_grow hhead hi hgen, hiff⟩

/-- Witness of C2: the snake at the right wall ends the game, since `640` is outside. -/
theorem step_terminal_iff_collision_witness :
    (wallGame.gameOver = false
      ∧ wallGame.snake.getLast? = some { X := 630, Y := 60, W := 10, H := 10 }
      ∧ wallGame.direction ∈ directions)
    ∧ ∃ s1 rest, update wallGame [] = some (s1, rest)
      ∧ (s1.gameOver = true ↔
          ¬ inPlayArea ((630 : Int) + wallGame.direction.X) ((60 : Int) + wallGame.direction.Y)
          ∨ ∃ c ∈ wallGame.snake.dropLast,
              c.X = (630 : Int) + wallGame.direction.X
              ∧ c.Y = (60 : Int) + wallGame.direction.Y) :=
  ⟨⟨by decide, by decide, by decide⟩,
   step_terminal_iff_collision wallGame [] { X := 630, Y := 60, W := 10, H := 10 }
     (by decide) (by decide) (by decide) (by decide) (by decide)
     (fun h => absurd h (by decide))⟩

/-- C3: in a running state of the game with a non-empty snake whose next head has the
coordinates of the food, the step (completed by any draw that the rejection loop
accepts) makes the snake one cell longer, by appending the next head, and the score
one higher, whatever food is placed. -/
theorem eating_step_grows (s : Game) (draws : List Draw) (head : Rect)
    (hreach : Reachable s) (hrun : s.gameOver = false)
    (hhead : s.snake.getLast? = some head)
    (hsame : sameCell (newHeadOf head s.direction) s.food)
    (hfuel : ∃ d ∈ draws, freeDraw (s.snake ++ [newHeadOf head s.direction]) d = true) :
    ∃ s1 rest, update s draws = some (s1, rest)
      ∧ s1.snake.length = s.snake.length + 1
      ∧ s1.score = s.score + 1
      ∧ s1.snake = s.snake ++ [newHeadOf head s.direction] := by
  have hinv := inv_of_reachable hreach
  obtain ⟨hfood, hrunning⟩ := sound_of_reachable hreach
  obtain ⟨hscore, hgrid⟩ := hrunning hrun
  have hlen := length_le_of_onGrid (hinv.2 hrun) hgrid
  have hi : (newHeadOf head s.direction).HasIntersection s.food = true :=
    hasIntersection_of_sameCell rfl rfl hsame hfood
  obtain ⟨s1, rest, hstep, _, _, hgrow, _⟩ := update_result hhead (fun _ => hfuel)
  obtain ⟨hsnake, hsc⟩ := hgrow hi
  have hsmall : wrap64 (s.score + 1) = s.score + 1 := wrap64_of_small (by omega) (by omega)
  refine ⟨s1, rest, hstep, ?_, hsc.trans hsmall, hsnake⟩
  rw [hsnake]
  simp

/-- Witness of C3: the game that `newGame` makes with the draws `(35, 5)`, which put the
food on the next head `(40, 60)`. -/
theorem eating_step_grows_witness :
    (Reachable { sampleGame with food := { X := 40, Y := 60, W := 10, H := 10 } }
      ∧ ({ sampleGame with food := { X := 40, Y := 60, W := 10, H := 10 } } : Game).gameOver
          = false)
    ∧ ∃ s1 rest,
        update { sampleGame with food := { X := 40, Y := 60, W := 10, H := 10 } } [(7, 9)]
          = some (s1, rest)
        ∧ s1.snake.length = 3 + 1
        ∧ s1.score = 0 + 1
        ∧ s1.snake = initialSnake ++ [newHeadOf { X := 30, Y := 60, W := 10, H := 10 }
                                        { X := 10, Y := 0 }] :=
  ⟨⟨Reachable.start [(35, 5)] _ [] (by decide), by decide⟩,
   eating_step_grows { sampleGame with food := { X := 40, Y := 60, W := 10, H := 10 } } [(7, 9)]
     { X := 30, Y := 60, W := 10, H := 10 } (Reachable.start [(35, 5)] _ [] (by decide))
     (by decide) (by decide) (by decide) ⟨(7, 9), by decide, by decide⟩⟩

/-- C4: in a running state with a non-empty snake, a step that eats no food (the next
head does not overlap the food rectangle) completes without a draw, the snake becomes
`snake[1:]` followed by the next head, and length, score and food are unchanged; in
particular from the snake `[(10,60),(20,60),(30,60)]` with direction `(10,0)` and score
0 the result is `[(20,60),(30,60),(40,60)]` with score 0, and the state is still
running. -/
theorem step_without_food_slides (s : Game) (draws : List Draw) (head : Rect)
    (hrun : s.gameOver = false) (hhead : s.snake.getLast? = some head)
    (hno : (newHeadOf head s.direction).HasIntersection s.food = false) :
    ∃ s1, update s draws = some (s1, draws)
      ∧ s1.snake = s.snake.tail ++ [newHeadOf head s.direction]
      ∧ s1.snake.length = s.snake.length
      ∧ s1.score = s.score ∧ s1.food = s.food
      ∧ (s.snake = initialSnake → s.direction = { X := 10, Y := 0 } → s.score = 0 →
          s1.snake = [{ X := 20, Y := 60, W := 10, H := 10 },
                      { X := 30, Y := 60, W := 10, H := 10 },
                      { X := 40, Y := 60, W := 10, H := 10 }]
          ∧ s1.score = 0 ∧ s1.gameOver = false) := by
  refine ⟨_, update_slide draws hhead hno, rfl, ?_, rfl, rfl, ?_⟩
  · have hne : s.snake ≠ [] := by
      intro he
      rw [he] at hhead
      exact absurd hhead (by simp)
    have hpos : 0 < s.snake.length := List.length_pos.mpr hne
    simp only [List.length_append, List.length_tail, List.length_singleton]
    omega
  · intro hs hd hsc
    rw [hs] at hhead
    have hh : head = { X := 30, Y := 60, W := 10, H := 10 } := by
      have h30 : initialSnake.getLast? = some { X := 30, Y := 60, W := 10, H := 10 } := by decide
      rw [h30] at hhead
      exact (Option.some.inj hhead).symm
    subst hh
    simp only [hs, hd, hrun, hsc]
    refine ⟨by decide, trivial, by decide⟩

/-- Witness of C4: the sample game, whose food at `(105, 155)` is away from the next
head. -/
theorem step_without_food_slides_witness :
    (sampleGame.gameOver = false
      ∧ sampleGame.snake.getLast? = some { X := 30, Y := 60, W := 10, H := 10 }
      ∧ (newHeadOf { X := 30, Y := 60, W := 10, H := 10 } sampleGame.direction).HasIntersection
          sampleGame.food = false)
    ∧ ∃ s1, update sampleGame [] = some (s1, [])
      ∧ s1.snake = sampleGame.snake.tail
          ++ [newHeadOf { X := 30, Y := 60, W := 10, H := 10 } sampleGame.direction]
      ∧ s1.snake.length = sampleGame.snake.length
      ∧ s1.score = sampleGame.score ∧ s1.food = sampleGame.food
      ∧ (sampleGame.snake = initialSnake → sampleGame.direction = { X := 10, Y := 0 } →
          sampleGame.score = 0 →
          s1.snake = [{ X := 20, Y := 60, W := 10, H := 10 },
                      { X := 30, Y := 60, W := 10, H := 10 },
                      { X := 40, Y := 60, W := 10, H := 10 }]
          ∧ s1.score = 0 ∧ s1.gameOver = false) :=
  ⟨⟨by decide, by decide, by decide⟩,
   step_without_food_slides sampleGame [] { X := 30, Y := 60, W := 10, H := 10 }
     (by decide) (by decide) (by decide)⟩

/-- Eating is decided by overlap, not by equal coordinates: in the sample game with the
food at `(45, 62)` the food square overlaps the square of the next head `(40, 60)`, the
food is eaten, the snake grows to four cells and the score becomes 1. -/
theorem overlapping_food_is_eaten :
    overlapGame.gameOver = false
    ∧ ¬ sameCell overlapGame.food { X := 40, Y := 60, W := 10, H := 10 }
    ∧ update overlapGame [(100, 100)]
        = some ({ overlapGame with
                    score := 1
                    food := { X := 105, Y := 155, W := 10, H := 10 }
                    snake := [{ X := 10, Y := 60, W := 10, H := 10 },
                              { X := 20, Y := 60, W := 10, H := 10 },
                              { X := 30, Y := 60, W := 10, H := 10 },
                              { X := 40, Y := 60, W := 10, H := 10 }] }, []) := by
  refine ⟨by decide, by decide, by decide⟩

/-! ## The terminal state -/

/-- C8 fails: a quit event sets the flag, and the step of the same pass (the tenth)
still moves the snake from `[(10,60),(20,60),(30,60)]` to `[(20,60),(30,60),(40,60)]`;
likewise a step run on a terminal state moves the snake. -/
theorem step_after_quit_moves_snake :
    (pollEvents { sampleGame with updateCount := 9 } [Event.QuitEvent]).gameOver = true
    ∧ loopBody { sampleGame with updateCount := 9 } [Event.QuitEvent] []
        = some ({ sampleGame with
                    gameOver := true
                    snake := [{ X := 20, Y := 60, W := 10, H := 10 },
                              { X := 30, Y := 60, W := 10, H := 10 },
                              { X := 40, Y := 60, W := 10, H := 10 }] }, [])
    ∧ update { sampleGame with gameOver := true } []
        = some ({ sampleGame with
                    gameOver := true
                    snake := [{ X := 20, Y := 60, W := 10, H := 10 },
                              { X := 30, Y := 60, W := 10, H := 10 },
                              { X := 40, Y := 60, W := 10, H := 10 }] }, [])
    ∧ [{ X := 20, Y := 60, W := 10, H := 10 }, { X := 30, Y := 60, W := 10, H := 10 },
        ({ X := 40, Y := 60, W := 10, H := 10 } : Rect)] ≠ sampleGame.snake := by
  refine ⟨by decide, by decide, by decide, by decide⟩

/-- C8, amended: a quit event sets the flag; when it arrives in the pass that counts
to ten, the step of that pass is still run (completed by an accepted draw, when food
is eaten), appends the next head to the snake and leaves the flag set.  Once the flag
is set at the head of a pass, the loop runs no further step and leaves the whole
state, snake, food and score included, as it is; no event clears the flag, and any
step run on a state with the flag set appends the next head and leaves it set. -/
theorem gameOver_is_absorbing (g0 : Game) (events : List Event) (draws : List Draw)
    (head : Rect)
    (hq : Event.QuitEvent ∈ events) (hcount : g0.updateCount = 9)
    (hhead : g0.snake.getLast? = some head)
    (hfuel : (newHeadOf head (pollEvents g0 events).direction).HasIntersection g0.food = true →
      ∃ d ∈ draws,
        freeDraw (g0.snake ++ [newHeadOf head (pollEvents g0 events).direction]) d = true) :
    (pollEvents g0 events).gameOver = true
    ∧ (∃ g1 rest, loopBody g0 events draws = some (g1, rest)
        ∧ g1.gameOver = true
        ∧ (g1.snake = g0.snake ++ [newHeadOf head (pollEvents g0 events).direction]
            ∨ g1.snake = g0.snake.tail ++ [newHeadOf head (pollEvents g0 events).direction])
        ∧ ((newHeadOf head (pollEvents g0 events).direction).HasIntersection g0.food = false →
            g1.snake = g0.snake.tail ++ [newHeadOf head (pollEvents g0 events).direction]
            ∧ g1.food = g0.food ∧ g1.score = g0.score ∧ rest = draws))
    ∧ (∀ g : Game, g.gameOver = true →
        (∀ passes d, runLoop passes g d = some (g, d))
        ∧ (∀ evs, (pollEvents g evs).gameOver = true)
        ∧ (∀ d hd, g.snake.getLast? = some hd →
            ((newHeadOf hd g.direction).HasIntersection g.food = true →
              ∃ e ∈ d, freeDraw (g.snake ++ [newHeadOf hd g.direction]) e = true) →
            ∃ g1 rest, update g d = some (g1, rest)
              ∧ g1.gameOver = true
              ∧ (g1.snake = g.snake ++ [newHeadOf hd g.direction]
                  ∨ g1.snake = g.snake.tail ++ [newHeadOf hd g.direction]))) := by
  have hterminal : ∀ (g : Game) (d : List Draw) (hd : Rect), g.gameOver = true →
      g.snake.getLast? = some hd →
      ((newHeadOf hd g.direction).HasIntersection g.food = true →
        ∃ e ∈ d, freeDraw (g.snake ++ [newHeadOf hd g.direction]) e = true) →
      ∃ g1 rest, update g d = some (g1, rest)
        ∧ g1.gameOver = true
        ∧ (g1.snake = g.snake ++ [newHeadOf hd g.direction]
            ∨ g1.snake = g.snake.tail ++ [newHeadOf hd g.direction])
        ∧ ((newHeadOf hd g.direction).HasIntersection g.food = false →
            g1.snake = g.snake.tail ++ [newHeadOf hd g.direction]
            ∧ g1.food = g.food ∧ g1.score = g.score ∧ rest = d) := by
    intro g d hd hg hh hf
    obtain ⟨g1, rest, hstep, hflag, hsnake, _, hslide⟩ := update_result hh hf
    refine ⟨g1, rest, hstep, ?_, hsnake, ?_⟩
    · rw [hflag]
      exact (over_eq_true_iff _ _ _).mpr (Or.inl hg)
    · intro hno
      obtain ⟨h1, h2, h3, _, h5⟩ := hslide hno
      exact ⟨h1, h2, h3, h5⟩
  have hquit := pollEvents_gameOver_of_quit g0 hq
  obtain ⟨hsn, hfd, hsc, _⟩ := pollEvents_fields g0 events
  refine ⟨hquit, ?_, ?_⟩
  · rw [loopBody_tenth events draws hcount]
    have key := hterminal { pollEvents g0 events with updateCount := 0 } draws head hquit
      (by rw [← hsn] at hhead; exact hhead)
      (by
        intro hi
        simp only [hsn, hfd] at hi ⊢
        exact hfuel hi)
    obtain ⟨g1, rest, hstep, hflag, hsnake, hslide⟩ := key
    simp only [hsn, hfd, hsc] at hsnake hslide
    exact ⟨g1, rest, hstep, hflag, hsnake, hslide⟩
  · intro g hg
    refine ⟨?_, fun evs => pollEvents_keeps_gameOver hg evs, ?_⟩
    · intro passes d
      cases passes with
      | nil => rfl
      | cons evs more => simp [runLoop, hg]
    · intro d hd hh hf
      obtain ⟨g1, rest, hstep, hflag, hsnake, _⟩ := hterminal g d hd hg hh hf
      exact ⟨g1, rest, hstep, hflag, hsnake⟩

/-- Witness of C8, amended: the sample game on its tenth pass, with a quit event. -/
theorem gameOver_is_absorbing_witness :
    (Event.QuitEvent ∈ [Event.QuitEvent]
      ∧ ({ sampleGame with updateCount := 9 } : Game).updateCount = 9
      ∧ ({ sampleGame with updateCount := 9 } : Game).snake.getLast?
          = some { X := 30, Y := 60, W := 10, H := 10 })
    ∧ (pollEvents { sampleGame with updateCount := 9 } [Event.QuitEvent]).gameOver = true
    ∧ (∃ g1 rest, loopBody { sampleGame with updateCount := 9 } [Event.QuitEvent] []
          = some (g1, rest)
        ∧ g1.gameOver = true
        ∧ (g1.snake = initialSnake ++ [newHeadOf { X := 30, Y := 60, W := 10, H := 10 }
              (pollEvents { sampleGame with updateCount := 9 } [Event.QuitEvent]).direction]
            ∨ g1.snake = initialSnake.tail ++ [newHeadOf { X := 30, Y := 60, W := 10, H := 10 }
              (pollEvents { sampleGame with updateCount := 9 } [Event.QuitEvent]).direction])
        ∧ ((newHeadOf { X := 30, Y := 60, W := 10, H := 10 }
              (pollEvents { sampleGame with updateCount := 9 }
                [Event.QuitEvent]).direction).HasIntersection sampleGame.food = false →
            g1.snake = initialSnake.tail ++ [newHeadOf { X := 30, Y := 60, W := 10, H := 10 }
              (pollEvents { sampleGame with updateCount := 9 } [Event.QuitEvent]).direction]
            ∧ g1.food = sampleGame.food ∧ g1.score = sampleGame.score ∧ rest = [])) :=
  have h := gameOver_is_absorbing { sampleGame with updateCount := 9 } [Event.QuitEvent] []
    { X := 30, Y := 60, W := 10, H := 10 } (by decide) rfl (by decide)
    (fun hi => absurd hi (by decide))
  ⟨⟨by decide, rfl, by decide⟩, h.1, h.2.1⟩

/-! ## The snake never overlaps itself while the game runs -/

/-- C9: in every state reachable from the initial game by events (direction updates
and quit), simulation steps and passes of the loop, with any draws for the food, a
state that is not terminal has a snake without two cells of the same coordinates. -/
theorem running_snake_has_distinct_cells (g : Game) (hreach : Reachable g)
    (hrun : g.gameOver = false) : distinctCells g.snake :=
  (inv_of_reachable hreach).2 hrun

/-- Witness of C9: the game after `newGame`, the up key and one step. -/
theorem running_snake_has_distinct_cells_witness :
    Reachable { sampleGame with
                  direction := { X := 0, Y := -10 }
                  snake := [{ X := 20, Y := 60, W := 10, H := 10 },
                            { X := 30, Y := 60, W := 10, H := 10 },
                            { X := 30, Y := 50, W := 10, H := 10 }] }
    ∧ distinctCells [{ X := 20, Y := 60, W := 10, H := 10 },
                     { X := 30, Y := 60, W := 10, H := 10 },
                     { X := 30, Y := 50, W := 10, H := 10 }] :=
  have hreach : Reachable { sampleGame with
                  direction := { X := 0, Y := -10 }
                  snake := [{ X := 20, Y := 60, W := 10, H := 10 },
                            { X := 30, Y := 60, W := 10, H := 10 },
                            { X := 30, Y := 50, W := 10, H := 10 }] } :=
    Reachable.step (handleEvent sampleGame (Event.KeyboardEvent true Keycode.K_UP)) [] _ []
      (Reachable.event sampleGame (Event.KeyboardEvent true Keycode.K_UP)
        (Reachable.start [(100, 100)] sampleGame [] (by decide)))
      (by decide)
  ⟨hreach, running_snake_has_distinct_cells _ hreach rfl⟩

end Gosnk
